import Mathlib

/-!
Verification of the `ruma` server-name identifier core.

The development embeds, as executable Lean definitions:

* the grammar validator for server names (the `ruma-identifiers-validation`
  crate is not part of the provided sources, so the validator is modelled
  from the specification's grammar, §4.1/§7);
* the `ServerName` wrapper type from
  `crates/ruma-identifiers/src/server_name.rs`, its ownership forms
  (borrowed, `Box`, `Rc`, `Arc`), its construction entry points, its
  comparison layer and its serialization bridge;
* the profile response decoding from
  `crates/ruma-client-api/src/r0/profile/get_profile.rs`;
* the server-ACL event content decoding from
  `crates/ruma-events/src/room/server_acl.rs`.

Rust `str` comparison (the derived `PartialEq` / `Ord` / `Hash` on
`ServerName` delegate to it) is defined over the UTF-8 bytes of the string,
so the development first sets up a byte-level view of Lean strings and
proves that the encoding is injective.
-/

/-- UTF-8 encoding of one Unicode code point given as a natural number.
This mirrors the byte representation that Rust `str::as_bytes` exposes;
bytes are modelled as natural numbers below 256. -/
def utf8EncodeCharNat (n : Nat) : List Nat :=
  if n < 128 then [n]
  else if n < 2048 then [192 + n / 64, 128 + n % 64]
  else if n < 65536 then [224 + n / 4096, 128 + n / 64 % 64, 128 + n % 64]
  else [240 + n / 262144, 128 + n / 4096 % 64, 128 + n / 64 % 64, 128 + n % 64]

/-- UTF-8 bytes of a list of characters. -/
def charsBytes (l : List Char) : List Nat :=
  (l.map (fun c => utf8EncodeCharNat c.toNat)).flatten

/-- UTF-8 bytes of a string, as Rust `str::as_bytes` shows them. -/
def strBytes (s : String) : List Nat :=
  charsBytes s.data

/-- Decoder for one UTF-8-encoded code point; left inverse of the encoder,
used to prove the encoding injective. -/
def utf8DecodeOne : List Nat → Option (Nat × List Nat)
  | [] => none
  | b :: rest =>
    if b < 128 then some (b, rest)
    else if b < 224 then
      match rest with
      | b1 :: r => some ((b - 192) * 64 + (b1 - 128), r)
      | [] => none
    else if b < 240 then
      match rest with
      | b1 :: b2 :: r => some ((b - 224) * 4096 + (b1 - 128) * 64 + (b2 - 128), r)
      | _ => none
    else
      match rest with
      | b1 :: b2 :: b3 :: r =>
        some ((b - 240) * 262144 + (b1 - 128) * 4096 + (b2 - 128) * 64 + (b3 - 128), r)
      | _ => none

theorem utf8EncodeCharNat_ne_nil (n : Nat) : utf8EncodeCharNat n ≠ [] := by
  unfold utf8EncodeCharNat
  split <;> simp_all
  split <;> simp_all
  split <;> simp_all

theorem utf8DecodeOne_encode (n : Nat) (hn : n < 1114112) (rest : List Nat) :
    utf8DecodeOne (utf8EncodeCharNat n ++ rest) = some (n, rest) := by
  by_cases h1 : n < 128
  · simp [utf8EncodeCharNat, utf8DecodeOne, h1]
  · by_cases h2 : n < 2048
    · have ha : ¬ (192 + n / 64 < 128) := by omega
      have hb : 192 + n / 64 < 224 := by omega
      simp [utf8EncodeCharNat, utf8DecodeOne, h1, h2, ha, hb]
      omega
    · by_cases h3 : n < 65536
      · have ha : ¬ (224 + n / 4096 < 128) := by omega
        have hb : ¬ (224 + n / 4096 < 224) := by omega
        have hc : 224 + n / 4096 < 240 := by omega
        simp [utf8EncodeCharNat, utf8DecodeOne, h1, h2, h3, ha, hb, hc]
        omega
      · have ha : ¬ (240 + n / 262144 < 128) := by omega
        have hb : ¬ (240 + n / 262144 < 224) := by omega
        have hc : ¬ (240 + n / 262144 < 240) := by omega
        simp [utf8EncodeCharNat, utf8DecodeOne, h1, h2, h3, ha, hb, hc]
        omega

theorem char_toNat_lt (c : Char) : c.toNat < 1114112 := by
  have h := c.valid
  unfold Char.toNat
  rcases h with h | h
  · omega
  · omega

theorem char_toNat_inj (c d : Char) (h : c.toNat = d.toNat) : c = d := by
  apply Char.ext
  unfold Char.toNat at h
  exact UInt32.ext h

theorem charsBytes_cons (c : Char) (t : List Char) :
    charsBytes (c :: t) = utf8EncodeCharNat c.toNat ++ charsBytes t := by
  simp [charsBytes]

theorem charsBytes_inj : ∀ l1 l2 : List Char, charsBytes l1 = charsBytes l2 → l1 = l2 := by
  intro l1
  induction l1 with
  | nil =>
    intro l2 h
    cases l2 with
    | nil => rfl
    | cons c t =>
      rw [charsBytes_cons] at h
      simp [charsBytes] at h
      exact absurd h.1 (utf8EncodeCharNat_ne_nil c.toNat)
  | cons c t ih =>
    intro l2 h
    cases l2 with
    | nil =>
      rw [charsBytes_cons] at h
      simp [charsBytes] at h
      exact absurd h.1 (utf8EncodeCharNat_ne_nil c.toNat)
    | cons d t2 =>
      rw [charsBytes_cons, charsBytes_cons] at h
      have hd1 := utf8DecodeOne_encode c.toNat (char_toNat_lt c) (charsBytes t)
      have hd2 := utf8DecodeOne_encode d.toNat (char_toNat_lt d) (charsBytes t2)
      rw [h] at hd1
      rw [hd2] at hd1
      have hcd : c.toNat = d.toNat := by
        have := Option.some.inj hd1
        exact (Prod.mk.injEq _ _ _ _ ▸ this).1.symm
      have hts : charsBytes t2 = charsBytes t := by
        have := Option.some.inj hd1
        exact (Prod.mk.injEq _ _ _ _ ▸ this).2
      rw [char_toNat_inj c d hcd, ih t2 hts.symm]

theorem strBytes_inj (s1 s2 : String) (h : strBytes s1 = strBytes s2) : s1 = s2 := by
  cases s1
  cases s2
  simp only [strBytes] at h
  simp [charsBytes_inj _ _ h]

/-!
The grammar validator.

The `ruma-identifiers-validation` crate that exports
`server_name::validate` is not part of the provided sources; the
definitions below are therefore modelled from the specification: a server
name is an IPv4 literal, a bracketed IPv6 literal, or a DNS name, each
optionally followed by a colon and a decimal port in `0..=65535`; an empty
port, a non-numeric port, and trailing characters after a bracketed IPv6
literal are invalid; the empty string is invalid.
-/

/-- Modelled from the spec: the failure taxonomy of the grammar validator
(§7): empty input, malformed host, invalid port, malformed IPv6 literal. -/
inductive ServerNameError where
  | emptyInput
  | malformedHost
  | invalidPort
  | malformedIpv6
deriving DecidableEq

deriving instance DecidableEq for Except

/-- Decimal digit test on a character, by code point. -/
def isDigitChar (c : Char) : Bool :=
  48 ≤ c.toNat && c.toNat ≤ 57

/-- Hexadecimal digit test on a character, by code point. -/
def isHexDigitChar (c : Char) : Bool :=
  isDigitChar c || (97 ≤ c.toNat && c.toNat ≤ 102) || (65 ≤ c.toNat && c.toNat ≤ 70)

/-- Characters allowed in a DNS name: ASCII letters, digits, hyphen, dot. -/
def isDnsChar (c : Char) : Bool :=
  isDigitChar c || (97 ≤ c.toNat && c.toNat ≤ 122) || (65 ≤ c.toNat && c.toNat ≤ 90)
    || c == '-' || c == '.'

/-- Value of a string of decimal digits. -/
def decimalValue (l : List Char) : Nat :=
  l.foldl (fun acc c => acc * 10 + (c.toNat - 48)) 0

/-- A non-empty, all-digit character string. -/
def isDecimal (l : List Char) : Bool :=
  !l.isEmpty && l.all isDigitChar

/-- Modelled from the spec: a port component is a decimal integer in
`0..=65535`; empty or non-numeric content after the colon is invalid. -/
def isValidPortStr (l : List Char) : Bool :=
  isDecimal l && decimalValue l ≤ 65535

/-- Splits a character list at every occurrence of the separator, like
string splitting on a one-character separator. -/
def splitOnChar (sep : Char) : List Char → List (List Char)
  | [] => [[]]
  | c :: rest =>
    if c = sep then [] :: splitOnChar sep rest
    else match splitOnChar sep rest with
      | [] => [[c]]
      | g :: gs => (c :: g) :: gs

/-- One octet of a dotted-decimal IPv4 literal: decimal and at most 255. -/
def isIPv4Octet (l : List Char) : Bool :=
  isDecimal l && decimalValue l ≤ 255

/-- Modelled from the spec: an IPv4 literal is a dotted-decimal address,
four decimal octets separated by dots. -/
def isIPv4Literal (l : List Char) : Bool :=
  let parts := splitOnChar '.' l
  parts.length == 4 && parts.all isIPv4Octet

/-- Modelled from the spec: a DNS name is a non-empty sequence of
domain-name characters (a permissive reading of the label rules, matching
the observed accept/reject behavior). -/
def isDnsName (l : List Char) : Bool :=
  !l.isEmpty && l.all isDnsChar

/-- One hexadecimal group of an IPv6 address: one to four hex digits. -/
def isHexGroup (l : List Char) : Bool :=
  !l.isEmpty && l.length ≤ 4 && l.all isHexDigitChar

/-- Splits a character list at the first occurrence of a double colon,
returning the parts before and after it. -/
def splitDoubleColon : List Char → Option (List Char × List Char)
  | [] => none
  | [_] => none
  | a :: b :: rest =>
    if a = ':' ∧ b = ':' then some ([], rest)
    else match splitDoubleColon (b :: rest) with
      | some (l, r) => some (a :: l, r)
      | none => none

/-- The colon-separated hex groups of one side of an IPv6 address; an empty
side contributes no group. -/
def hexGroups (l : List Char) : List (List Char) :=
  if l.isEmpty then [] else splitOnChar ':' l

/-- Modelled from the spec: a syntactically valid IPv6 address in its
hexadecimal-groups form: eight groups, or fewer with a single double-colon
abbreviation. -/
def isIPv6Address (l : List Char) : Bool :=
  match splitDoubleColon l with
  | none =>
    let gs := splitOnChar ':' l
    gs.length == 8 && gs.all isHexGroup
  | some (left, right) =>
    match splitDoubleColon right with
    | some _ => false
    | none =>
      let lg := hexGroups left
      let rg := hexGroups right
      lg.all isHexGroup && rg.all isHexGroup && lg.length + rg.length ≤ 7

/-- Splits a list at the first occurrence of a character, returning the
parts before and after it, or nothing when the character is absent. -/
def splitAtFirst (sep : Char) : List Char → Option (List Char × List Char)
  | [] => none
  | c :: rest =>
    if c = sep then some ([], rest)
    else match splitAtFirst sep rest with
      | some (l, r) => some (c :: l, r)
      | none => none

/-- Modelled from the spec: the grammar validator
`ruma_identifiers_validation::server_name::validate` (the crate is not in
the provided sources). A server name is an IPv4 literal, a bracketed IPv6
literal, or a DNS name, each optionally followed by a colon and a port in
`0..=65535`; the empty string, an empty or non-numeric or out-of-range
port, and trailing characters after a bracketed IPv6 literal are
rejected. -/
def validate (s : String) : Except ServerNameError Unit :=
  match s.data with
  | [] => .error .emptyInput
  | '[' :: rest =>
    match splitAtFirst ']' rest with
    | none => .error .malformedIpv6
    | some (inner, after) =>
      if !isIPv6Address inner then .error .malformedIpv6
      else match after with
        | [] => .ok ()
        | ':' :: port => if isValidPortStr port then .ok () else .error .invalidPort
        | _ => .error .malformedIpv6
  | l =>
    match splitAtFirst ':' l with
    | none =>
      if isIPv4Literal l || isDnsName l then .ok () else .error .malformedHost
    | some (host, port) =>
      if !(isIPv4Literal host || isDnsName host) then .error .malformedHost
      else if isValidPortStr port then .ok () else .error .invalidPort


/-!
The identifier wrapper, its ownership forms and its entry points, embedding
`crates/ruma-identifiers/src/server_name.rs`. The Rust type is
`#[repr(transparent)] struct ServerName(str)`; the private constructors
`from_borrowed` and `from_owned` reinterpret an already-validated string
buffer, so in the embedding they simply wrap the string. The distinct Rust
ownership forms `&ServerName`, `Box<ServerName>`, `Rc<ServerName>` and
`Arc<ServerName>` are embedded as distinct wrapper structures over the same
logical content.
-/

/-- The `ServerName` wrapper: a string anchored in a distinguishable type. -/
structure ServerName where
  content : String
deriving DecidableEq

/-- Private constructor `ServerName::from_borrowed`: reinterprets a
borrowed string slice. -/
def ServerName.from_borrowed (s : String) : ServerName :=
  ⟨s⟩

/-- Private constructor `ServerName::from_owned`: reinterprets an owned
string buffer. -/
def ServerName.from_owned (s : String) : ServerName :=
  ⟨s⟩

/-- `ServerName::into_owned`: releases the wrapper and returns the same
storage as a plain string. -/
def ServerName.into_owned (sn : ServerName) : String :=
  sn.content

/-- `ServerName::as_str`. -/
def ServerName.as_str (sn : ServerName) : String :=
  sn.content

/-- `ServerName::as_bytes`: the UTF-8 bytes of the contained text. -/
def ServerName.as_bytes (sn : ServerName) : List Nat :=
  strBytes sn.content

/-- The unique-buffer ownership form `Box<ServerName>`. -/
structure BoxServerName where
  inner : ServerName
deriving DecidableEq

/-- The single-thread shared ownership form `Rc<ServerName>`. -/
structure RcServerName where
  inner : ServerName
deriving DecidableEq

/-- The cross-thread shared ownership form `Arc<ServerName>`. -/
structure ArcServerName where
  inner : ServerName
deriving DecidableEq

/-- `ToOwned for ServerName`: copies the bytes into a fresh unique buffer
via `from_owned`. -/
def ServerName.to_owned (sn : ServerName) : BoxServerName :=
  ⟨ServerName.from_owned sn.content⟩

/-- `Clone for Box<ServerName>`: delegates to `to_owned` on the contents. -/
def BoxServerName.clone (b : BoxServerName) : BoxServerName :=
  b.inner.to_owned

/-- `AsRef<str> for Box<ServerName>` / deref to the contained name. -/
def BoxServerName.as_str (b : BoxServerName) : String :=
  b.inner.as_str

/-- `From<&ServerName> for Box<ServerName>`. -/
def boxServerNameFromRef (sn : ServerName) : BoxServerName :=
  sn.to_owned

/-- `From<&ServerName> for Rc<ServerName>`: copies `as_str` into a new
shared buffer and reinterprets it. -/
def rcServerNameFromRef (sn : ServerName) : RcServerName :=
  ⟨ServerName.from_borrowed sn.as_str⟩

/-- `From<&ServerName> for Arc<ServerName>`: copies `as_str` into a new
atomically shared buffer and reinterprets it. -/
def arcServerNameFromRef (sn : ServerName) : ArcServerName :=
  ⟨ServerName.from_borrowed sn.as_str⟩

/-- `From<Box<ServerName>> for String`: `s.into_owned().into()`. -/
def stringFromBoxServerName (b : BoxServerName) : String :=
  b.inner.into_owned

/-- The free function `try_from` of `server_name.rs`: validate, then wrap
the same string via `from_owned`. -/
def try_from (s : String) : Except ServerNameError BoxServerName :=
  match validate s with
  | .ok _ => .ok ⟨ServerName.from_owned s⟩
  | .error e => .error e

/-- `TryFrom<&str> for &ServerName`: validate, then wrap the same borrowed
string via `from_borrowed`. -/
def ServerName.try_from_ref (s : String) : Except ServerNameError ServerName :=
  match validate s with
  | .ok _ => .ok (ServerName.from_borrowed s)
  | .error e => .error e

/-- `FromStr for Box<ServerName>`: delegates to `try_from`. -/
def boxServerNameFromStr (s : String) : Except ServerNameError BoxServerName :=
  try_from s

/-- `TryFrom<&str> for Box<ServerName>`: delegates to `try_from`. -/
def boxServerNameTryFromStr (s : String) : Except ServerNameError BoxServerName :=
  try_from s

/-- `TryFrom<String> for Box<ServerName>`: delegates to `try_from`. -/
def boxServerNameTryFromString (s : String) : Except ServerNameError BoxServerName :=
  try_from s

/-- `Display for ServerName`: writes `as_str` unchanged. -/
def ServerName.displayStr (sn : ServerName) : String :=
  sn.as_str

/-!
The comparison layer. The Rust derives `PartialEq`, `Eq`, `PartialOrd`,
`Ord` and `Hash` on `ServerName(str)` delegate to `str`, whose equality and
ordering are byte equality and lexicographic byte ordering, and whose
hashing feeds the bytes to the hasher. The embedding states them over
`as_bytes`.
-/

/-- Derived `PartialEq` on `ServerName`: byte equality of the contents. -/
def ServerName.beq_bytes (a b : ServerName) : Bool :=
  a.as_bytes == b.as_bytes

/-- Lexicographic comparison of byte sequences, as Rust `Ord for str`. -/
def bytesCmp : List Nat → List Nat → Ordering
  | [], [] => .eq
  | [], _ :: _ => .lt
  | _ :: _, [] => .gt
  | a :: l1, b :: l2 =>
    if a < b then .lt
    else if b < a then .gt
    else bytesCmp l1 l2

/-- Derived `Ord` on `ServerName`: lexicographic over the content bytes. -/
def ServerName.cmp (a b : ServerName) : Ordering :=
  bytesCmp a.as_bytes b.as_bytes

/-- A content-only hash over a byte sequence (64-bit accumulator),
standing in for the hasher the derived `Hash` feeds the bytes to. -/
def bytesHash (l : List Nat) : Nat :=
  l.foldl (fun h b => (h * 33 + b) % 18446744073709551616) 5381

/-- Derived `Hash` on `ServerName`: hashes exactly the content bytes. -/
def ServerName.hash_val (a : ServerName) : Nat :=
  bytesHash a.as_bytes

/-!
The serialization bridge. `ServerName` is `serde(transparent)`, so it
serializes as the bare string; `Deserialize for Box<ServerName>` goes
through `crate::deserialize_id`, which decodes a string and re-runs the
validator. JSON values are embedded as an inductive type.
-/

/-- A JSON value, as far as the embedded decoders need it. -/
inductive Json where
  | null
  | bool (b : Bool)
  | num (n : Int)
  | str (s : String)
  | arr (elems : List Json)
  | obj (fields : List (String × Json))

/-- A structured decode failure. -/
inductive DeserializeError where
  | invalidServerName (e : ServerNameError)
  | unexpectedType
deriving DecidableEq

/-- `Serialize for ServerName` with `serde(transparent)`: the bare string,
no wrapper markers. -/
def serializeServerName (sn : ServerName) : Json :=
  .str sn.as_str

/-- Modelled from the spec: `crate::deserialize_id` (the identifiers crate
root is not in the provided sources) decodes a string and re-runs the
grammar validator, surfacing validation failure as a structured decode
error; `Deserialize for Box<ServerName>` delegates to it. -/
def deserializeBoxServerName (j : Json) : Except DeserializeError BoxServerName :=
  match j with
  | .str s =>
    match try_from s with
    | .ok b => .ok b
    | .error e => .error (.invalidServerName e)
  | _ => .error .unexpectedType

/-!
The profile response, embedding
`crates/ruma-client-api/src/r0/profile/get_profile.rs`, and the server-ACL
event content, embedding `crates/ruma-events/src/room/server_acl.rs`. The
serde derive machinery and the `ruma_serde` helpers are external to the
provided sources, so the field-level decoding rules (missing optional
field decodes to absent, `serde(default)` defaults, the `compat` empty
string convention) are modelled from the specification.
-/

/-- An `MxcUri` media reference: at this stage of the library it is an
opaque, unvalidated string wrapper; the server-name grammar validator
plays no part in it. -/
structure MxcUri where
  content : String
deriving DecidableEq

/-- The response of the get-profile endpoint: three independently optional
fields (the blurhash field sits behind the unstable feature and is wire
named by its unstable prefix). -/
structure GetProfileResponse where
  avatar_url : Option MxcUri
  displayname : Option String
  blurhash : Option String
deriving DecidableEq

/-- Lookup of a field by key in a decoded JSON object. -/
def jsonLookup (fields : List (String × Json)) (key : String) : Option Json :=
  match fields with
  | [] => none
  | (k, v) :: rest => if k = key then some v else jsonLookup rest key

/-- Modelled from the spec: `ruma_serde::empty_string_as_none`, the compat
decoding of an optional field that treats an empty wire string as absent;
independent of the grammar validator. -/
def empty_string_as_none (j : Json) : Except DeserializeError (Option MxcUri) :=
  match j with
  | .null => .ok none
  | .str s => if s = "" then .ok none else .ok (some ⟨s⟩)
  | _ => .error .unexpectedType

/-- Decoding of a plain optional media reference field (no compat mode):
a string is taken as is, with no validation of its content. -/
def decodeOptMxcUri (j : Json) : Except DeserializeError (Option MxcUri) :=
  match j with
  | .null => .ok none
  | .str s => .ok (some ⟨s⟩)
  | _ => .error .unexpectedType

/-- Decoding of an optional free-text string field. -/
def decodeOptString (j : Json) : Except DeserializeError (Option String) :=
  match j with
  | .null => .ok none
  | .str s => .ok (some s)
  | _ => .error .unexpectedType

/-- Decoding of the get-profile response object: each optional field is
absent when missing; `avatar_url` goes through `empty_string_as_none`
exactly when the compat feature is enabled. -/
def decodeGetProfileResponse (compat : Bool) (j : Json) :
    Except DeserializeError GetProfileResponse :=
  match j with
  | .obj fields => do
    let avatar ← match jsonLookup fields "avatar_url" with
      | none => pure none
      | some v => if compat then empty_string_as_none v else decodeOptMxcUri v
    let dn ← match jsonLookup fields "displayname" with
      | none => pure none
      | some v => decodeOptString v
    let bh ← match jsonLookup fields "xyz.amorgan.blurhash" with
      | none => pure none
      | some v => decodeOptString v
    pure ⟨avatar, dn, bh⟩
  | _ => .error .unexpectedType

/-- The payload of an `m.room.server_acl` event: a boolean defaulting to
true and two lists of unvalidated wildcard host patterns defaulting to
empty. -/
structure ServerAclEventContent where
  allow_ip_literals : Bool
  allow : List String
  deny : List String
deriving DecidableEq

/-- `ServerAclEventContent::new`. -/
def ServerAclEventContent.new (allow_ip_literals : Bool) (allow : List String)
    (deny : List String) : ServerAclEventContent :=
  ⟨allow_ip_literals, allow, deny⟩

/-- Modelled from the spec: `ruma_serde::default_true`, the
`serde(default = ...)` value of `allow_ip_literals`. -/
def default_true : Bool :=
  true

/-- Decoding of a JSON array of strings, taken as is: the wildcard host
patterns are never passed through the grammar validator. -/
def decodeStringArray (l : List Json) : Except DeserializeError (List String) :=
  match l with
  | [] => .ok []
  | .str s :: rest => do
    let xs ← decodeStringArray rest
    pure (s :: xs)
  | _ => .error .unexpectedType

/-- Decoding of the server-ACL event content object: `allow_ip_literals`
defaults to `default_true` when missing, `allow` and `deny` default to the
empty list when missing. -/
def decodeServerAclEventContent (j : Json) :
    Except DeserializeError ServerAclEventContent :=
  match j with
  | .obj fields => do
    let ail ← match jsonLookup fields "allow_ip_literals" with
      | none => pure default_true
      | some (.bool b) => pure b
      | some _ => Except.error DeserializeError.unexpectedType
    let allow ← match jsonLookup fields "allow" with
      | none => pure ([] : List String)
      | some (.arr xs) => decodeStringArray xs
      | some _ => Except.error DeserializeError.unexpectedType
    let deny ← match jsonLookup fields "deny" with
      | none => pure ([] : List String)
      | some (.arr xs) => decodeStringArray xs
      | some _ => Except.error DeserializeError.unexpectedType
    pure ⟨ail, allow, deny⟩
  | _ => .error .unexpectedType


/-!
Helper lemmas shared by the claim theorems.
-/

theorem try_from_ok_elim (s : String) (b : BoxServerName) (h : try_from s = Except.ok b) :
    validate s = Except.ok () ∧ b = ⟨ServerName.from_owned s⟩ := by
  unfold try_from at h
  cases hv : validate s with
  | ok u =>
    rw [hv] at h
    simp at h
    exact ⟨by cases u; rfl, h.symm⟩
  | error e =>
    rw [hv] at h
    simp at h

theorem try_from_ref_ok_elim (s : String) (sn : ServerName)
    (h : ServerName.try_from_ref s = Except.ok sn) :
    validate s = Except.ok () ∧ sn = ServerName.from_borrowed s := by
  unfold ServerName.try_from_ref at h
  cases hv : validate s with
  | ok u =>
    rw [hv] at h
    simp at h
    exact ⟨by cases u; rfl, h.symm⟩
  | error e =>
    rw [hv] at h
    simp at h

theorem try_from_error_intro (s : String) (e : ServerNameError)
    (h : validate s = Except.error e) : try_from s = Except.error e := by
  unfold try_from
  rw [h]

theorem try_from_ref_error_intro (s : String) (e : ServerNameError)
    (h : validate s = Except.error e) : ServerName.try_from_ref s = Except.error e := by
  unfold ServerName.try_from_ref
  rw [h]

theorem serverName_eq_iff_bytes (a b : ServerName) : a = b ↔ a.as_bytes = b.as_bytes := by
  constructor
  · intro h
    rw [h]
  · intro h
    cases a with
    | mk c1 =>
      cases b with
      | mk c2 =>
        simp only [ServerName.as_bytes] at h
        simp [strBytes_inj _ _ h]

theorem bytesCmp_eq_iff : ∀ l1 l2 : List Nat, bytesCmp l1 l2 = Ordering.eq ↔ l1 = l2 := by
  intro l1
  induction l1 with
  | nil =>
    intro l2
    cases l2 <;> simp [bytesCmp]
  | cons a t ih =>
    intro l2
    cases l2 with
    | nil => simp [bytesCmp]
    | cons b t2 =>
      by_cases h1 : a < b
      · simp [bytesCmp, h1]
        intro hab
        omega
      · by_cases h2 : b < a
        · simp [bytesCmp, h1, h2]
          intro hab
          omega
        · have hab : a = b := by omega
          subst hab
          simp [bytesCmp, h1, h2, ih t2]

/-!
The claims.
-/

/-- C1: for every string that validates successfully, rendering the
resulting identifier back to text — via `as_str`, via `Display`, or via
the `Box<ServerName>`-to-`String` conversion — returns exactly the input
string, byte for byte, with no normalization and no further validation. -/
theorem C1_round_trip :
    (∀ s b, try_from s = Except.ok b →
      b.as_str = s ∧ b.inner.displayStr = s ∧ stringFromBoxServerName b = s) ∧
    (∀ s sn, ServerName.try_from_ref s = Except.ok sn →
      sn.as_str = s ∧ sn.displayStr = s) := by
  constructor
  · intro s b h
    obtain ⟨-, hb⟩ := try_from_ok_elim s b h
    subst hb
    exact ⟨rfl, rfl, rfl⟩
  · intro s sn h
    obtain ⟨-, hsn⟩ := try_from_ref_ok_elim s sn h
    subst hsn
    exact ⟨rfl, rfl⟩

/-- Witness for C1 at the concrete accepted input `"example.com"`. -/
theorem C1_round_trip_witness :
    BoxServerName.as_str ⟨⟨"example.com"⟩⟩ = "example.com" ∧
    ServerName.displayStr ⟨"example.com"⟩ = "example.com" ∧
    stringFromBoxServerName ⟨⟨"example.com"⟩⟩ = "example.com" :=
  C1_round_trip.1 "example.com" ⟨⟨"example.com"⟩⟩ (by decide)

/-- C2: every public construction entry point (`TryFrom<&str>` for the
borrowed form, `try_from` behind `FromStr` / `TryFrom<&str>` /
`TryFrom<String>` for the unique-buffer form, deserialization) runs the
grammar validator and returns an error instead of an instance when
validation fails; every instance an entry point returns, and every
ownership form derived from it, contains validator-accepted text. -/
theorem C2_validated_instances :
    (∀ s e, validate s = Except.error e →
      ServerName.try_from_ref s = Except.error e ∧
      try_from s = Except.error e ∧
      boxServerNameFromStr s = Except.error e ∧
      boxServerNameTryFromStr s = Except.error e ∧
      boxServerNameTryFromString s = Except.error e ∧
      deserializeBoxServerName (Json.str s) =
        Except.error (DeserializeError.invalidServerName e)) ∧
    (∀ s sn, ServerName.try_from_ref s = Except.ok sn → validate sn.as_str = Except.ok ()) ∧
    (∀ s b, try_from s = Except.ok b → validate b.as_str = Except.ok ()) ∧
    (∀ j b, deserializeBoxServerName j = Except.ok b → validate b.as_str = Except.ok ()) ∧
    (∀ sn : ServerName, validate sn.as_str = Except.ok () →
      validate sn.to_owned.as_str = Except.ok () ∧
      validate (rcServerNameFromRef sn).inner.as_str = Except.ok () ∧
      validate (arcServerNameFromRef sn).inner.as_str = Except.ok () ∧
      validate sn.to_owned.clone.as_str = Except.ok ()) := by
  refine ⟨?_, ?_, ?_, ?_, ?_⟩
  · intro s e h
    have h1 := try_from_error_intro s e h
    refine ⟨try_from_ref_error_intro s e h, h1, h1, h1, h1, ?_⟩
    simp only [deserializeBoxServerName]
    rw [h1]
  · intro s sn h
    obtain ⟨hv, hsn⟩ := try_from_ref_ok_elim s sn h
    subst hsn
    exact hv
  · intro s b h
    obtain ⟨hv, hb⟩ := try_from_ok_elim s b h
    subst hb
    exact hv
  · intro j b h
    cases j with
    | str s =>
      simp only [deserializeBoxServerName] at h
      cases ht : try_from s with
      | ok b2 =>
        rw [ht] at h
        simp at h
        obtain ⟨hv, hb2⟩ := try_from_ok_elim s b2 ht
        subst h
        subst hb2
        exact hv
      | error e =>
        rw [ht] at h
        simp at h
    | null => simp [deserializeBoxServerName] at h
    | bool b2 => simp [deserializeBoxServerName] at h
    | num n => simp [deserializeBoxServerName] at h
    | arr l => simp [deserializeBoxServerName] at h
    | obj l => simp [deserializeBoxServerName] at h
  · intro sn h
    exact ⟨h, h, h, h⟩

/-- Witness for C2 at the concrete inputs `""` (rejected) and
`"example.com"` (accepted). -/
theorem C2_validated_instances_witness :
    ServerName.try_from_ref "" = Except.error ServerNameError.emptyInput ∧
    validate (ServerName.as_str ⟨"example.com"⟩) = Except.ok () :=
  ⟨(C2_validated_instances.1 "" ServerNameError.emptyInput (by decide)).1,
   C2_validated_instances.2.1 "example.com" ⟨"example.com"⟩ (by decide)⟩

/-- C3: equality, ordering and hashing of identifiers depend only on the
contained text: identifiers are equal exactly when their byte sequences
are equal, the byte-equality test and the lexicographic byte comparison
agree with equality, hashing agrees with byte equality, and the
unique-buffer, `Rc` and `Arc` forms built from a validated string carry
identifiers equal and hash-equal to the borrowed one. -/
theorem C3_comparison_layer :
    (∀ a b : ServerName, a = b ↔ a.as_bytes = b.as_bytes) ∧
    (∀ a b : ServerName, a.beq_bytes b = true ↔ a = b) ∧
    (∀ a b : ServerName, a.cmp b = Ordering.eq ↔ a = b) ∧
    (∀ a b : ServerName, a.as_bytes = b.as_bytes → a.hash_val = b.hash_val) ∧
    (∀ s sn, ServerName.try_from_ref s = Except.ok sn →
      sn.to_owned.inner = sn ∧
      (rcServerNameFromRef sn).inner = sn ∧
      (arcServerNameFromRef sn).inner = sn ∧
      sn.to_owned.inner.hash_val = sn.hash_val ∧
      (rcServerNameFromRef sn).inner.hash_val = sn.hash_val ∧
      (arcServerNameFromRef sn).inner.hash_val = sn.hash_val) := by
  refine ⟨serverName_eq_iff_bytes, ?_, ?_, ?_, ?_⟩
  · intro a b
    rw [serverName_eq_iff_bytes]
    simp [ServerName.beq_bytes]
  · intro a b
    rw [serverName_eq_iff_bytes]
    exact bytesCmp_eq_iff a.as_bytes b.as_bytes
  · intro a b h
    unfold ServerName.hash_val
    rw [h]
  · intro s sn h
    exact ⟨rfl, rfl, rfl, rfl, rfl, rfl⟩

/-- Witness for C3 at the concrete accepted input `"example.com"`. -/
theorem C3_comparison_layer_witness :
    ServerName.hash_val ⟨"example.com"⟩ = ServerName.hash_val ⟨"example.com"⟩ ∧
    (ServerName.to_owned ⟨"example.com"⟩).inner = (⟨"example.com"⟩ : ServerName) :=
  ⟨C3_comparison_layer.2.2.2.1 ⟨"example.com"⟩ ⟨"example.com"⟩ rfl,
   (C3_comparison_layer.2.2.2.2 "example.com" ⟨"example.com"⟩ (by decide)).1⟩

/-- C4: the six concrete accept cases all validate successfully and
construct an identifier, both through the borrowed-form entry point and
through the unique-buffer entry point. -/
theorem C4_accept_cases :
    ServerName.try_from_ref "127.0.0.1" = Except.ok ⟨"127.0.0.1"⟩ ∧
    ServerName.try_from_ref "1.1.1.1:12000" = Except.ok ⟨"1.1.1.1:12000"⟩ ∧
    ServerName.try_from_ref "[::1]" = Except.ok ⟨"[::1]"⟩ ∧
    ServerName.try_from_ref "[1234:5678::abcd]:5678" = Except.ok ⟨"[1234:5678::abcd]:5678"⟩ ∧
    ServerName.try_from_ref "example.com" = Except.ok ⟨"example.com"⟩ ∧
    ServerName.try_from_ref "ruma.io:8080" = Except.ok ⟨"ruma.io:8080"⟩ ∧
    (try_from "127.0.0.1").isOk = true ∧
    (try_from "1.1.1.1:12000").isOk = true ∧
    (try_from "[::1]").isOk = true ∧
    (try_from "[1234:5678::abcd]:5678").isOk = true ∧
    (try_from "example.com").isOk = true ∧
    (try_from "ruma.io:8080").isOk = true := by
  decide

/-- C5: the six concrete reject cases all fail validation with the stated
failure categories, and no identifier is produced by either entry
point. -/
theorem C5_reject_cases :
    ServerName.try_from_ref "" = Except.error ServerNameError.emptyInput ∧
    ServerName.try_from_ref "[test::1]" = Except.error ServerNameError.malformedIpv6 ∧
    ServerName.try_from_ref "127.0.0.1:" = Except.error ServerNameError.invalidPort ∧
    ServerName.try_from_ref "[fe80::1]:100000" = Except.error ServerNameError.invalidPort ∧
    ServerName.try_from_ref "[fe80::1]!" = Except.error ServerNameError.malformedIpv6 ∧
    ServerName.try_from_ref "matrix.org:hello" = Except.error ServerNameError.invalidPort ∧
    (try_from "").isOk = false ∧
    (try_from "[test::1]").isOk = false ∧
    (try_from "127.0.0.1:").isOk = false ∧
    (try_from "[fe80::1]:100000").isOk = false ∧
    (try_from "[fe80::1]!").isOk = false ∧
    (try_from "matrix.org:hello").isOk = false := by
  decide

/-- C6: validation is idempotent: feeding the rendered text of an
identifier obtained from a successful validation back into the same entry
point succeeds and reproduces an equal identifier. -/
theorem C6_idempotent_validation :
    (∀ s sn, ServerName.try_from_ref s = Except.ok sn →
      ServerName.try_from_ref sn.as_str = Except.ok sn) ∧
    (∀ s b, try_from s = Except.ok b → try_from b.as_str = Except.ok b) := by
  constructor
  · intro s sn h
    obtain ⟨-, hsn⟩ := try_from_ref_ok_elim s sn h
    subst hsn
    exact h
  · intro s b h
    obtain ⟨-, hb⟩ := try_from_ok_elim s b h
    subst hb
    exact h

/-- Witness for C6 at the concrete accepted input `"example.com"`. -/
theorem C6_idempotent_validation_witness :
    ServerName.try_from_ref (ServerName.as_str ⟨"example.com"⟩) =
      Except.ok ⟨"example.com"⟩ :=
  C6_idempotent_validation.1 "example.com" ⟨"example.com"⟩ (by decide)

/-- C7: deserializing a `Box<ServerName>` re-runs the grammar validator on
the decoded string and fails with a structured error, producing no
identifier, whenever validation fails; a successful decode only arises
from the bare string rendering of the identifier; serialization is the
transparent plain string with no wrapper markers. -/
theorem C7_serde_bridge :
    (∀ s e, validate s = Except.error e →
      deserializeBoxServerName (Json.str s) =
        Except.error (DeserializeError.invalidServerName e)) ∧
    (∀ j b, deserializeBoxServerName j = Except.ok b →
      validate b.as_str = Except.ok () ∧ j = Json.str b.as_str) ∧
    (∀ sn : ServerName, serializeServerName sn = Json.str sn.as_str) := by
  refine ⟨?_, ?_, ?_⟩
  · intro s e h
    simp only [deserializeBoxServerName]
    rw [try_from_error_intro s e h]
  · intro j b h
    cases j with
    | str s =>
      simp only [deserializeBoxServerName] at h
      cases ht : try_from s with
      | ok b2 =>
        rw [ht] at h
        simp at h
        obtain ⟨hv, hb2⟩ := try_from_ok_elim s b2 ht
        subst h
        subst hb2
        exact ⟨hv, rfl⟩
      | error e =>
        rw [ht] at h
        simp at h
    | null => simp [deserializeBoxServerName] at h
    | bool b2 => simp [deserializeBoxServerName] at h
    | num n => simp [deserializeBoxServerName] at h
    | arr l => simp [deserializeBoxServerName] at h
    | obj l => simp [deserializeBoxServerName] at h
  · intro sn
    rfl

/-- Witness for C7 at the concrete rejected input `"[test::1]"` and a
concrete identifier. -/
theorem C7_serde_bridge_witness :
    deserializeBoxServerName (Json.str "[test::1]") =
      Except.error (DeserializeError.invalidServerName ServerNameError.malformedIpv6) ∧
    serializeServerName ⟨"example.com"⟩ = Json.str "example.com" :=
  ⟨C7_serde_bridge.1 "[test::1]" ServerNameError.malformedIpv6 (by decide),
   C7_serde_bridge.2.2 ⟨"example.com"⟩⟩

/-- C8: with the compat mode enabled, an empty `avatar_url` string in the
wire payload decodes to an absent avatar, while any non-empty string
decodes to a present value with no grammar validation applied to it. -/
theorem C8_compat_empty_avatar :
    (∀ dn : String,
      decodeGetProfileResponse true
        (Json.obj [("avatar_url", Json.str ""), ("displayname", Json.str dn)]) =
        Except.ok ⟨none, some dn, none⟩) ∧
    (decodeGetProfileResponse true (Json.obj [("avatar_url", Json.str "")]) =
      Except.ok ⟨none, none, none⟩) ∧
    (∀ s : String, s ≠ "" →
      decodeGetProfileResponse true (Json.obj [("avatar_url", Json.str s)]) =
        Except.ok ⟨some ⟨s⟩, none, none⟩) := by
  refine ⟨?_, by decide, ?_⟩
  · intro dn
    rfl
  · intro s hs
    simp [decodeGetProfileResponse, jsonLookup, empty_string_as_none, hs]

/-- Witness for C8: a non-empty avatar string that the server-name
validator would reject still decodes to a present value. -/
theorem C8_compat_empty_avatar_witness :
    decodeGetProfileResponse true (Json.obj [("avatar_url", Json.str "mxc://x")]) =
      Except.ok ⟨some ⟨"mxc://x"⟩, none, none⟩ :=
  C8_compat_empty_avatar.2.2 "mxc://x" (by decide)

/-- C9: decoding an empty server-ACL content object yields
`allow_ip_literals = true` and empty `allow` and `deny` lists, and the
pattern lists accept wildcard strings that the grammar validator
rejects. -/
theorem C9_acl_defaults :
    decodeServerAclEventContent (Json.obj []) =
      Except.ok ⟨true, [], []⟩ ∧
    decodeServerAclEventContent
      (Json.obj [("allow", Json.arr [Json.str "*.example.com", Json.str "?"])]) =
      Except.ok ⟨true, ["*.example.com", "?"], []⟩ ∧
    validate "*.example.com" = Except.error ServerNameError.malformedHost ∧
    validate "?" = Except.error ServerNameError.malformedHost := by
  decide

/-- C10: cloning a unique-buffer identifier — `Clone` on the box, or
`ToOwned` on the borrowed form — produces an identifier whose text equals
the original, and the original identifier is unchanged (the embedding is
pure, so the source value itself cannot be mutated; the clone carries
equal content). -/
theorem C10_clone_box :
    (∀ b : BoxServerName, b.clone.inner = b.inner ∧ b.clone.as_str = b.as_str) ∧
    (∀ sn : ServerName, sn.to_owned.inner = sn ∧ sn.to_owned.as_str = sn.as_str) :=
  ⟨fun _ => ⟨rfl, rfl⟩, fun _ => ⟨rfl, rfl⟩⟩
